import Mathlib

/-!
Verification of the service layer of the "Мир Якоба" blogging platform.

The Lean definitions below are a shallow embedding of the Python source:
SQLAlchemy tables become lists of records, `datetime` values become `Nat`
ticks (minutes, unless noted otherwise), and each service method becomes a
pure function from an explicit state to a new state.  SQLAlchemy's
`scalar_one_or_none` (which returns the unique matching row, `None` for no
match, and raises for several matches) is modelled by `exactlyOne`, which
yields `none` in both failure cases.
-/

set_option maxHeartbeats 1000000

/-! ## Post visibility (src/services/post.py, src/db/models/post.py, user.py) -/

/-- `AccessLevel` from src/db/models/user.py: an `IntEnum` with values
PUBLIC = 0, REGISTERED = 1, PREMIUM_1 = 2, PREMIUM_2 = 3. -/
inductive AccessLevel where
  | public
  | registered
  | premium_1
  | premium_2
deriving DecidableEq, Repr

/-- The integer value of an `AccessLevel` (the `IntEnum` ordinal). -/
def access_ord : AccessLevel → Nat
  | .public => 0
  | .registered => 1
  | .premium_1 => 2
  | .premium_2 => 3

/-- `PostVisibility` from src/db/models/post.py. -/
inductive PostVisibility where
  | public
  | registered
  | premium_1
  | premium_2
deriving DecidableEq, Repr

/-- The ordinal tier of a `PostVisibility` (the minimum access level needed). -/
def visibility_tier : PostVisibility → Nat
  | .public => 0
  | .registered => 1
  | .premium_1 => 2
  | .premium_2 => 3

/-- `PostStatus` from src/db/models/post.py. -/
inductive PostStatus where
  | draft
  | published
  | archived
deriving DecidableEq, Repr

/-- A row of the `posts` table, restricted to the columns used by the
retrieval queries of `PostService`. -/
structure Post where
  slug : String
  visibility : PostVisibility
  status : PostStatus
  isPinned : Bool
  pinnedAt : Option Nat
  publishedAt : Option Nat
  createdAt : Nat
deriving DecidableEq, Repr

/-- Model of SQLAlchemy `Result.scalar_one_or_none`: the unique row, or
`none` (several matching rows raise in Python; that is folded into `none`). -/
def exactlyOne : List α → Option α
  | [a] => some a
  | _ => none

/-- The `visibility_map` dictionary shared by `get_post_by_slug`,
`list_posts` and `search_posts` in src/services/post.py.  The `.get`
default `[PostVisibility.PUBLIC]` is unreachable because the match on the
enum is total. -/
def visibility_map : AccessLevel → List PostVisibility
  | .public => [.public]
  | .registered => [.public, .registered]
  | .premium_1 => [.public, .registered, .premium_1]
  | .premium_2 => [.public, .registered, .premium_1, .premium_2]

/-- `PostService.get_post_by_slug` (src/services/post.py lines 224-252):
select posts with the given slug, visibility within the allowed list and
status PUBLISHED, and take the unique result. -/
def get_post_by_slug (db : List Post) (slug : String) (lvl : AccessLevel) :
    Option Post :=
  exactlyOne (db.filter (fun p =>
    p.slug == slug
      && (visibility_map lvl).contains p.visibility
      && p.status == PostStatus.published))

/-- `COALESCE(published_at, created_at)` used by the `list_posts` ordering. -/
def coalesce_published (p : Post) : Nat :=
  p.publishedAt.getD p.createdAt

/-- The ORDER BY of `list_posts`: `is_pinned DESC, pinned_at DESC NULLS
LAST, COALESCE(published_at, created_at) DESC`, as a boolean "comes no
later than" comparator. -/
def post_order_le (a b : Post) : Bool :=
  if a.isPinned != b.isPinned then a.isPinned
  else
    match a.pinnedAt, b.pinnedAt with
    | some x, some y =>
        if x != y then decide (y ≤ x)
        else decide (coalesce_published b ≤ coalesce_published a)
    | some _, none => true
    | none, some _ => false
    | none, none => decide (coalesce_published b ≤ coalesce_published a)

/-- Stable insertion step for the model of the SQL ORDER BY. -/
def insertLe (le : α → α → Bool) (a : α) : List α → List α
  | [] => [a]
  | b :: l => if le a b then a :: b :: l else b :: insertLe le a l

/-- Stable insertion sort modelling the SQL ORDER BY of `list_posts`. -/
def sortLe (le : α → α → Bool) : List α → List α
  | [] => []
  | a :: l => insertLe le a (sortLe le l)

/-- `PostService.list_posts` (src/services/post.py lines 267-321): filter
by allowed visibilities, drop drafts unless requested, count the total,
then sort and paginate with OFFSET `(page-1)*per_page` LIMIT `per_page`. -/
def list_posts (db : List Post) (lvl : AccessLevel) (page per_page : Nat)
    (include_drafts : Bool) : List Post × Nat :=
  let q1 := db.filter (fun p => (visibility_map lvl).contains p.visibility)
  let q2 := if include_drafts then q1
            else q1.filter (fun p => p.status == PostStatus.published)
  let total := q2.length
  (((sortLe post_order_le q2).drop ((page - 1) * per_page)).take per_page, total)

/-- The set of posts visible at an access level: the filter common to
`get_post_by_slug` and (draft-free) `list_posts`. -/
def visible_posts (db : List Post) (lvl : AccessLevel) : List Post :=
  db.filter (fun p =>
    (visibility_map lvl).contains p.visibility
      && p.status == PostStatus.published)

theorem exactlyOne_eq_some {l : List α} {a : α} (h : exactlyOne l = some a) :
    l = [a] := by
  match l with
  | [] => simp [exactlyOne] at h
  | [x] => simp [exactlyOne] at h; simp [h]
  | x :: y :: t => simp [exactlyOne] at h

theorem mem_insertLe {le : α → α → Bool} {a x : α} {l : List α} :
    x ∈ insertLe le a l ↔ x = a ∨ x ∈ l := by
  induction l with
  | nil => simp [insertLe]
  | cons b t ih =>
      by_cases h : le a b = true
      · simp [insertLe, h]
      · simp only [insertLe, h]
        simp [ih]
        tauto

theorem mem_sortLe {le : α → α → Bool} {x : α} {l : List α} :
    x ∈ sortLe le l ↔ x ∈ l := by
  induction l with
  | nil => simp [sortLe]
  | cons b t ih => simp [sortLe, mem_insertLe, ih]

/-- Allowed-visibility membership coincides with the ordinal order. -/
theorem visibility_map_contains_iff (lvl : AccessLevel) (v : PostVisibility) :
    (visibility_map lvl).contains v = true ↔
      visibility_tier v ≤ access_ord lvl := by
  cases lvl <;> cases v <;> decide

/-- With pairwise-distinct slugs (the UNIQUE constraint on `posts.slug`),
a slug-keyed filter matches at most one row. -/
theorem filter_slug_length_le_one (db : List Post) (slug : String)
    (q : Post → Bool) (hnd : (db.map Post.slug).Nodup) :
    (db.filter (fun p => p.slug == slug && q p)).length ≤ 1 := by
  induction db with
  | nil => simp
  | cons p l ih =>
      simp only [List.map_cons, List.nodup_cons] at hnd
      by_cases hp : (p.slug == slug && q p) = true
      · have hslug : p.slug = slug := by
          have := (Bool.and_eq_true _ _).mp hp
          exact beq_iff_eq.mp this.1
        have hempty : l.filter (fun x => x.slug == slug && q x) = [] := by
          rw [List.filter_eq_nil_iff]
          intro x hx hcontra
          have hx1 : x.slug = slug := by
            have := (Bool.and_eq_true _ _).mp hcontra
            exact beq_iff_eq.mp this.1
          exact hnd.1 (by
            rw [← hslug] at hx1
            exact hx1 ▸ List.mem_map_of_mem Post.slug hx)
        simp [List.filter_cons, hp, hempty]
      · simp only [List.filter_cons, hp]
        simp only [Bool.false_eq_true, if_false]
        exact ih hnd.2

/-- C1: For every user access level L (public < registered < premium_1 <
premium_2) and every post P, `get_post_by_slug` and `list_posts` return P
only if P is published and L is at least P's visibility tier under the
ordinal order, and raising the access level never removes a post from the
visible set; with unique slugs, `get_post_by_slug` itself is monotone. -/
theorem c1_visibility_tier_gating (db : List Post) (slug : String)
    (L Lh : AccessLevel) (P : Post) (page per_page : Nat) :
    (get_post_by_slug db slug L = some P →
        P.status = PostStatus.published ∧
          visibility_tier P.visibility ≤ access_ord L)
    ∧ (P ∈ (list_posts db L page per_page false).1 →
        P.status = PostStatus.published ∧
          visibility_tier P.visibility ≤ access_ord L)
    ∧ (access_ord L ≤ access_ord Lh →
        P ∈ visible_posts db L → P ∈ visible_posts db Lh)
    ∧ ((db.map Post.slug).Nodup → access_ord L ≤ access_ord Lh →
        get_post_by_slug db slug L = some P →
        get_post_by_slug db slug Lh = some P) := by
  refine ⟨?_, ?_, ?_, ?_⟩
  · intro h
    have hl := exactlyOne_eq_some h
    have hmem : P ∈ db.filter (fun p =>
        p.slug == slug && (visibility_map L).contains p.visibility
          && p.status == PostStatus.published) := by
      rw [hl]; exact List.mem_singleton.mpr rfl
    have hpred := List.of_mem_filter hmem
    simp only [Bool.and_eq_true, beq_iff_eq] at hpred
    exact ⟨hpred.2, (visibility_map_contains_iff L P.visibility).mp hpred.1.2⟩
  · intro h
    simp only [list_posts] at h
    have h1 := List.mem_of_mem_take h
    have h2 := List.mem_of_mem_drop h1
    rw [mem_sortLe] at h2
    have hpred := List.of_mem_filter h2
    have h3 := List.mem_filter.mp (List.mem_of_mem_filter h2)
    simp only [beq_iff_eq] at hpred
    refine ⟨hpred, ?_⟩
    exact (visibility_map_contains_iff L P.visibility).mp h3.2
  · intro hle h
    have hpred := List.of_mem_filter h
    have hmem := List.mem_of_mem_filter h
    simp only [Bool.and_eq_true] at hpred
    refine List.mem_filter.mpr ⟨hmem, ?_⟩
    have ht := (visibility_map_contains_iff L P.visibility).mp hpred.1
    simp only [Bool.and_eq_true]
    exact ⟨(visibility_map_contains_iff Lh P.visibility).mpr (le_trans ht hle),
      hpred.2⟩
  · intro hnd hle h
    have hl := exactlyOne_eq_some h
    have hmem : P ∈ db.filter (fun p =>
        p.slug == slug && (visibility_map L).contains p.visibility
          && p.status == PostStatus.published) := by
      rw [hl]; exact List.mem_singleton.mpr rfl
    have hpred := List.of_mem_filter hmem
    have hin := List.mem_of_mem_filter hmem
    simp only [Bool.and_eq_true] at hpred
    have hpredh : (P.slug == slug
        && (visibility_map Lh).contains P.visibility
        && P.status == PostStatus.published) = true := by
      simp only [Bool.and_eq_true]
      refine ⟨⟨hpred.1.1, ?_⟩, hpred.2⟩
      exact (visibility_map_contains_iff Lh P.visibility).mpr
        (le_trans ((visibility_map_contains_iff L P.visibility).mp hpred.1.2) hle)
    have hmemh : P ∈ db.filter (fun p =>
        p.slug == slug && (visibility_map Lh).contains p.visibility
          && p.status == PostStatus.published) :=
      List.mem_filter.mpr ⟨hin, hpredh⟩
    have hlen := filter_slug_length_le_one db slug
      (fun p => (visibility_map Lh).contains p.visibility
        && p.status == PostStatus.published) hnd
    have hlen2 : (db.filter (fun p =>
        p.slug == slug && (visibility_map Lh).contains p.visibility
          && p.status == PostStatus.published)).length ≤ 1 := by
      have := hlen
      rw [show (fun (p : Post) =>
          p.slug == slug && ((visibility_map Lh).contains p.visibility
            && p.status == PostStatus.published))
          = (fun (p : Post) =>
          p.slug == slug && (visibility_map Lh).contains p.visibility
            && p.status == PostStatus.published) from by
        funext p; rw [Bool.and_assoc]] at this
      exact this
    have hflh : db.filter (fun p =>
        p.slug == slug && (visibility_map Lh).contains p.visibility
          && p.status == PostStatus.published) = [P] := by
      cases hfl : db.filter (fun p =>
          p.slug == slug && (visibility_map Lh).contains p.visibility
            && p.status == PostStatus.published) with
      | nil => rw [hfl] at hmemh; simp at hmemh
      | cons x t =>
          cases t with
          | nil =>
              rw [hfl] at hmemh
              simp at hmemh
              rw [hmemh]
          | cons y t2 =>
              exfalso
              rw [hfl] at hlen2
              simp at hlen2
    unfold get_post_by_slug
    rw [hflh]
    rfl

/-- A tiny concrete database used by the witnesses below. -/
def demoPost : Post :=
  { slug := "hello", visibility := PostVisibility.registered,
    status := PostStatus.published, isPinned := false, pinnedAt := none,
    publishedAt := some 5, createdAt := 1 }

/-- Witness for C1: on a one-post database the theorem's first conjunct
evaluates concretely. -/
theorem c1_visibility_tier_gating_witness :
    demoPost.status = PostStatus.published ∧
      visibility_tier demoPost.visibility ≤ access_ord AccessLevel.registered :=
  (c1_visibility_tier_gating [demoPost] "hello" AccessLevel.registered
    AccessLevel.premium_1 demoPost 1 10).1 (by decide)

/-! ## Auth service (src/services/auth.py, src/db/models/user.py)

Time is measured in abstract minute ticks.  `settings.auth_code_expire_minutes`
and `settings.session_expire_days` keep their defaults from src/config.py. -/

/-- Model of Python `str.upper()` (kernel-computable, unlike
`String.toUpper`): uppercase every character. -/
def py_upper (s : String) : String :=
  ⟨s.data.map Char.toUpper⟩

/-- Model of Python `str.lower()`: lowercase every character. -/
def py_lower (s : String) : String :=
  ⟨s.data.map Char.toLower⟩

/-- Model of Python `str.strip()`: drop leading and trailing whitespace. -/
def py_strip (s : String) : String :=
  ⟨((s.data.dropWhile Char.isWhitespace).reverse.dropWhile
      Char.isWhitespace).reverse⟩

/-- Model of Python `str.startswith`. -/
def starts_with (s pre : String) : Bool :=
  pre.data.isPrefixOf s.data

/-- The `code.strip().upper()` normalization in `verify_auth_code`. -/
def normalize_code (code : String) : String :=
  py_upper (py_strip code)

/-- `settings.auth_code_expire_minutes` (src/config.py, default 5). -/
def auth_code_expire_minutes : Nat := 5

/-- `settings.session_expire_days` (src/config.py, default 30), converted
to minute ticks. -/
def session_expire_minutes : Nat := 30 * 24 * 60

/-- A row of the `users` table, restricted to what the auth service reads. -/
structure UserRec where
  id : Nat
  telegramId : Int
  lastLogin : Option Nat
deriving DecidableEq, Repr

/-- A row of the `auth_codes` table (src/db/models/user.py lines 55-69). -/
structure AuthCodeRec where
  code : String
  telegramId : Int
  expiresAt : Nat
  used : Bool
deriving DecidableEq, Repr

/-- A row of the `sessions` table (src/db/models/user.py lines 72-92). -/
structure SessionRec where
  userId : Nat
  tokenHash : String
  expiresAt : Nat
deriving DecidableEq, Repr

/-- The database state seen by `AuthService`. -/
structure AuthState where
  users : List UserRec
  codes : List AuthCodeRec
  sessions : List SessionRec
deriving DecidableEq, Repr

/-- `AuthService.create_auth_code` (src/services/auth.py lines 36-54):
mark every unused code of this telegram id as used, then insert a new code
expiring `auth_code_expire_minutes` after `now`.  The randomly generated
code string is a parameter. -/
def create_auth_code (tg : Int) (code : String) (now : Nat) (s : AuthState) :
    AuthState :=
  { s with codes :=
      (s.codes.map (fun c =>
        if c.telegramId == tg && c.used == false then { c with used := true }
        else c))
      ++ [{ code := code, telegramId := tg,
            expiresAt := now + auth_code_expire_minutes, used := false }] }

/-- The WHERE clause of the SELECT in `verify_auth_code`: matching
telegram id, matching (normalized) code, expiry strictly in the future,
not yet used. -/
def auth_code_pred (tg : Int) (ncode : String) (now : Nat)
    (c : AuthCodeRec) : Bool :=
  c.telegramId == tg && c.code == ncode
    && decide (now < c.expiresAt) && c.used == false

/-- Marking the single selected ORM row as used: flip `used` on the first
matching row (the SELECT guarantees there is exactly one match whenever
this is reached). -/
def mark_used_first (p : AuthCodeRec → Bool) :
    List AuthCodeRec → List AuthCodeRec
  | [] => []
  | c :: cs =>
      if p c then { c with used := true } :: cs
      else c :: mark_used_first p cs

/-- `AuthService.get_user_by_telegram_id` (src/services/auth.py 89-94). -/
def get_user_by_telegram_id (s : AuthState) (tg : Int) : Option UserRec :=
  exactlyOne (s.users.filter (fun u => u.telegramId == tg))

/-- `AuthService.verify_auth_code` (src/services/auth.py lines 56-87):
normalize the code with `strip().upper()`, select the unique unused
unexpired matching code, mark it used, then fetch or create the user and
set its last login.  `newUid` stands for the random UUID a created user
would get. -/
def verify_auth_code (tg : Int) (code : String) (newUid : Nat) (now : Nat)
    (s : AuthState) : Option UserRec × AuthState :=
  match exactlyOne (s.codes.filter
      (auth_code_pred tg (normalize_code code) now)) with
  | none => (none, s)
  | some _ =>
      match get_user_by_telegram_id s tg with
      | some u =>
          (some { u with lastLogin := some now },
           { s with
               codes := mark_used_first
                 (auth_code_pred tg (normalize_code code) now) s.codes,
               users := s.users.map (fun v =>
                 if v.telegramId == tg then { v with lastLogin := some now }
                 else v) })
      | none =>
          (some { id := newUid, telegramId := tg, lastLogin := some now },
           { s with
               codes := mark_used_first
                 (auth_code_pred tg (normalize_code code) now) s.codes,
               users := s.users
                 ++ [{ id := newUid, telegramId := tg,
                       lastLogin := some now }] })

/-- `AuthService.create_session` (src/services/auth.py lines 119-133):
persist only the hash of the token, with expiry `session_expire_minutes`
after `now`, and hand the raw token back.  The SHA-256 hex digest
`hash_token` and the random token are parameters of the embedding. -/
def create_session (hashT : String → String) (uid : Nat) (token : String)
    (now : Nat) (s : AuthState) : String × AuthState :=
  (token,
   { s with sessions := s.sessions
       ++ [{ userId := uid, tokenHash := hashT token,
             expiresAt := now + session_expire_minutes }] })

/-- `AuthService.get_user_by_id` (src/services/auth.py lines 96-99). -/
def get_user_by_id (s : AuthState) (uid : Nat) : Option UserRec :=
  exactlyOne (s.users.filter (fun u => u.id == uid))

/-- `AuthService.get_user_by_session_token` (src/services/auth.py lines
135-150): hash the presented token, select the unique unexpired session
with that hash, then load its user. -/
def get_user_by_session_token (hashT : String → String) (token : String)
    (now : Nat) (s : AuthState) : Option UserRec :=
  match exactlyOne (s.sessions.filter (fun ss =>
      ss.tokenHash == hashT token && decide (now < ss.expiresAt))) with
  | none => none
  | some ss => get_user_by_id s ss.userId

/-- A failed predicate stays failed as time moves forward: the only
time-dependent conjunct of `auth_code_pred` is the expiry bound. -/
theorem auth_code_pred_mono_false {tg : Int} {ncode : String}
    {now now2 : Nat} {c : AuthCodeRec}
    (h : auth_code_pred tg ncode now c = false) (hle : now ≤ now2) :
    auth_code_pred tg ncode now2 c = false := by
  simp only [auth_code_pred, Bool.and_eq_false_iff] at h ⊢
  rcases h with ((h | h) | h) | h
  · exact Or.inl (Or.inl (Or.inl h))
  · exact Or.inl (Or.inl (Or.inr h))
  · refine Or.inl (Or.inr ?_)
    simp only [decide_eq_false_iff_not, not_lt] at h ⊢
    omega
  · exact Or.inr h

/-- After marking the unique matching code used, no code matches. -/
theorem mark_used_first_no_match {p : AuthCodeRec → Bool}
    (hp : ∀ c : AuthCodeRec, p { c with used := true } = false) :
    ∀ l : List AuthCodeRec, ∀ c : AuthCodeRec, l.filter p = [c] →
      ∀ x ∈ mark_used_first p l, p x = false := by
  intro l
  induction l with
  | nil => intro c h x hx; simp [mark_used_first] at hx
  | cons c0 cs ih =>
      intro c h x hx
      by_cases h0 : p c0 = true
      · simp only [List.filter_cons, h0, if_true] at h
        have hc0 : c0 = c := (List.cons_eq_cons.mp h).1
        have hnil : cs.filter p = [] := (List.cons_eq_cons.mp h).2
        simp only [mark_used_first, h0, if_true, List.mem_cons] at hx
        rcases hx with hx | hx
        · rw [hx]; exact hp c0
        · exact Bool.eq_false_iff.mpr (List.filter_eq_nil_iff.mp hnil x hx)
      · simp only [List.filter_cons, h0] at h
        simp only [Bool.false_eq_true, if_false] at h
        simp only [mark_used_first, h0] at hx
        simp only [Bool.false_eq_true, if_false, List.mem_cons] at hx
        rcases hx with hx | hx
        · rw [hx]; exact Bool.eq_false_iff.mpr h0
        · exact ih c h x hx

/-- Both user branches of `verify_auth_code` store the same updated code
table. -/
theorem verify_auth_code_codes (tg : Int) (code : String) (newUid now : Nat)
    (s : AuthState) :
    (verify_auth_code tg code newUid now s).2.codes =
      match exactlyOne (s.codes.filter
          (auth_code_pred tg (normalize_code code) now)) with
      | none => s.codes
      | some _ => mark_used_first
          (auth_code_pred tg (normalize_code code) now) s.codes := by
  unfold verify_auth_code
  cases exactlyOne (s.codes.filter (auth_code_pred tg (normalize_code code) now)) with
  | none => rfl
  | some c0 => cases get_user_by_telegram_id s tg <;> rfl

/-- When no code row matches, `verify_auth_code` answers `none`. -/
theorem verify_auth_code_fst_none (tg : Int) (code : String)
    (newUid now : Nat) (s : AuthState)
    (h : s.codes.filter (auth_code_pred tg (normalize_code code) now) = []) :
    (verify_auth_code tg code newUid now s).1 = none := by
  unfold verify_auth_code
  rw [h]
  rfl

/-- C2: Auth codes are one-time and short-lived.  `create_auth_code`
inserts a code expiring `auth_code_expire_minutes` after creation;
`verify_auth_code` answers a user only when an unused code matching the
telegram id with expiry strictly in the future exists; and after a
successful verification, a later repeat with the same code yields
`none`. -/
theorem c2_auth_code_one_time (tg : Int) (code : String) (uid uid2 : Nat)
    (now now2 : Nat) (s : AuthState) (u : UserRec) :
    ((create_auth_code tg code now s).codes.getLast? =
        some { code := code, telegramId := tg,
               expiresAt := now + auth_code_expire_minutes, used := false })
    ∧ ((verify_auth_code tg code uid now s).1 = some u →
        ∃ c, c ∈ s.codes ∧ c.telegramId = tg ∧ c.code = normalize_code code ∧
          now < c.expiresAt ∧ c.used = false)
    ∧ (now ≤ now2 → (verify_auth_code tg code uid now s).1 = some u →
        (verify_auth_code tg code uid2 now2
          (verify_auth_code tg code uid now s).2).1 = none) := by
  refine ⟨?_, ?_, ?_⟩
  · simp [create_auth_code]
  · intro h
    unfold verify_auth_code at h
    cases hm : exactlyOne (s.codes.filter
        (auth_code_pred tg (normalize_code code) now)) with
    | none => rw [hm] at h; simp at h
    | some c0 =>
        have hl := exactlyOne_eq_some hm
        have hc : c0 ∈ s.codes.filter
            (auth_code_pred tg (normalize_code code) now) := by
          rw [hl]; exact List.mem_singleton.mpr rfl
        have hp := List.of_mem_filter hc
        have hcs := List.mem_of_mem_filter hc
        simp only [auth_code_pred, Bool.and_eq_true, beq_iff_eq,
          decide_eq_true_eq] at hp
        exact ⟨c0, hcs, hp.1.1.1, hp.1.1.2, hp.1.2, hp.2⟩
  · intro hle h
    unfold verify_auth_code at h
    cases hm : exactlyOne (s.codes.filter
        (auth_code_pred tg (normalize_code code) now)) with
    | none => rw [hm] at h; simp at h
    | some c0 =>
        have hcodes := verify_auth_code_codes tg code uid now s
        rw [hm] at hcodes
        have hflip : ∀ c : AuthCodeRec,
            auth_code_pred tg (normalize_code code) now
              { c with used := true } = false := by
          intro c; simp [auth_code_pred]
        have hall := mark_used_first_no_match hflip s.codes c0
          (exactlyOne_eq_some hm)
        have hfilter : (verify_auth_code tg code uid now s).2.codes.filter
            (auth_code_pred tg (normalize_code code) now2) = [] := by
          rw [hcodes]
          rw [List.filter_eq_nil_iff]
          intro x hx
          have := auth_code_pred_mono_false (hall x hx) hle
          simp [this]
        exact verify_auth_code_fst_none tg code uid2 now2
          (verify_auth_code tg code uid now s).2 hfilter

/-- A one-code database for the C2 witness. -/
def demoAuthState : AuthState :=
  { users := [],
    codes := [{ code := "ABCD2345", telegramId := 7, expiresAt := 10,
                used := false }],
    sessions := [] }

/-- Witness for C2: on a concrete state the first verification succeeds
and the repeat with the same code is rejected. -/
theorem c2_auth_code_one_time_witness :
    (verify_auth_code 7 "abcd2345" 2 3
      (verify_auth_code 7 "abcd2345" 1 0 demoAuthState).2).1 = none :=
  (c2_auth_code_one_time 7 "abcd2345" 1 2 0 3 demoAuthState
    { id := 1, telegramId := 7, lastLogin := some 0 }).2.2
    (by decide) (by decide)

/-- C3: Session tokens are stored only as hashes and round-trip.
`create_session` persists exactly one new row carrying `hashT token` (never
the token); while unexpired, `get_user_by_session_token` recovers the
session's user; and a token whose hash matches no stored unexpired session
yields `none`.  The SHA-256 hex digest is abstracted as `hashT`. -/
theorem c3_session_token_roundtrip (hashT : String → String) (uid : Nat)
    (token t2 : String) (now now2 : Nat) (s : AuthState) (u : UserRec) :
    ((create_session hashT uid token now s).2.sessions =
        s.sessions ++ [{ userId := uid, tokenHash := hashT token,
                         expiresAt := now + session_expire_minutes }])
    ∧ ((∀ ss ∈ s.sessions, ss.tokenHash ≠ hashT token) →
        now2 < now + session_expire_minutes →
        get_user_by_id s uid = some u →
        get_user_by_session_token hashT token now2
          (create_session hashT uid token now s).2 = some u)
    ∧ ((∀ ss ∈ s.sessions, ss.tokenHash ≠ hashT t2 ∨ ss.expiresAt ≤ now2) →
        get_user_by_session_token hashT t2 now2 s = none) := by
  refine ⟨rfl, ?_, ?_⟩
  · intro hfresh hnow huser
    have hfilter : (create_session hashT uid token now s).2.sessions.filter
        (fun ss => ss.tokenHash == hashT token && decide (now2 < ss.expiresAt))
        = [{ userId := uid, tokenHash := hashT token,
             expiresAt := now + session_expire_minutes }] := by
      show (s.sessions ++ [_]).filter _ = _
      rw [List.filter_append]
      have h1 : s.sessions.filter
          (fun ss => ss.tokenHash == hashT token
            && decide (now2 < ss.expiresAt)) = [] := by
        rw [List.filter_eq_nil_iff]
        intro ss hss hcontra
        have := (Bool.and_eq_true _ _).mp hcontra
        exact hfresh ss hss (beq_iff_eq.mp this.1)
      rw [h1]
      simp [hnow]
    unfold get_user_by_session_token
    rw [hfilter]
    exact huser
  · intro hdead
    have hfilter : s.sessions.filter
        (fun ss => ss.tokenHash == hashT t2 && decide (now2 < ss.expiresAt))
        = [] := by
      rw [List.filter_eq_nil_iff]
      intro ss hss hcontra
      have hc := (Bool.and_eq_true _ _).mp hcontra
      rcases hdead ss hss with h | h
      · exact h (beq_iff_eq.mp hc.1)
      · have := of_decide_eq_true hc.2
        omega
    unfold get_user_by_session_token
    rw [hfilter]
    rfl

/-- A stand-in hash function for the C3 witness. -/
def demo_hash (t : String) : String :=
  t ++ "#"

/-- A one-user database for the C3 witness. -/
def demoUserState : AuthState :=
  { users := [{ id := 1, telegramId := 7, lastLogin := none }],
    codes := [], sessions := [] }

/-- Witness for C3: a freshly created session round-trips to its user. -/
theorem c3_session_token_roundtrip_witness :
    get_user_by_session_token demo_hash "tok" 5
      (create_session demo_hash 1 "tok" 0 demoUserState).2 =
      some { id := 1, telegramId := 7, lastLogin := none } :=
  (c3_session_token_roundtrip demo_hash 1 "tok" "tok" 0 5 demoUserState
    { id := 1, telegramId := 7, lastLogin := none }).2.1
    (by intro ss hss; simp [demoUserState] at hss) (by decide) (by decide)

/-- Invariant on the `auth_codes` table: every unused code is the most
recently created one for its telegram id, i.e. no code created after an
unused code shares its telegram id. -/
def good_codes : List AuthCodeRec → Prop
  | [] => True
  | c :: l => (c.used = false → ∀ c2 ∈ l, c2.telegramId ≠ c.telegramId)
      ∧ good_codes l

theorem good_codes_map {f : AuthCodeRec → AuthCodeRec}
    (hf1 : ∀ c, (f c).telegramId = c.telegramId)
    (hf2 : ∀ c, (f c).used = false → c.used = false) :
    ∀ {l : List AuthCodeRec}, good_codes l → good_codes (l.map f) := by
  intro l
  induction l with
  | nil => intro h; exact h
  | cons c l ih =>
      intro h
      refine ⟨?_, ih h.2⟩
      intro hu c2 hc2
      obtain ⟨c0, hc0, rfl⟩ := List.mem_map.mp hc2
      rw [hf1 c0, hf1 c]
      exact h.1 (hf2 c hu) c0 hc0

theorem good_codes_append {l : List AuthCodeRec} {new : AuthCodeRec}
    (h : good_codes l)
    (hnone : ∀ c ∈ l, c.used = false → c.telegramId ≠ new.telegramId) :
    good_codes (l ++ [new]) := by
  induction l with
  | nil =>
      refine ⟨?_, trivial⟩
      intro _ c2 hc2
      simp at hc2
  | cons c l ih =>
      refine ⟨?_, ih h.2 (fun c0 hc0 => hnone c0 (List.mem_cons_of_mem c hc0))⟩
      intro hu c2 hc2
      rcases List.mem_append.mp hc2 with hc2 | hc2
      · exact h.1 hu c2 hc2
      · have : c2 = new := by simpa using hc2
        rw [this]
        exact fun hcontra =>
          hnone c (List.mem_cons_self c l) hu hcontra.symm

theorem mem_mark_used_first {p : AuthCodeRec → Bool} {x : AuthCodeRec} :
    ∀ {l : List AuthCodeRec}, x ∈ mark_used_first p l →
      x ∈ l ∨ ∃ c ∈ l, x = { c with used := true } := by
  intro l
  induction l with
  | nil => intro h; simp [mark_used_first] at h
  | cons c l ih =>
      intro h
      by_cases hc : p c = true
      · simp only [mark_used_first, hc, if_true, List.mem_cons] at h
        rcases h with h | h
        · exact Or.inr ⟨c, List.mem_cons_self c l, h⟩
        · exact Or.inl (List.mem_cons_of_mem c h)
      · simp only [mark_used_first, hc] at h
        simp only [Bool.false_eq_true, if_false, List.mem_cons] at h
        rcases h with h | h
        · exact Or.inl (h ▸ List.mem_cons_self c l)
        · rcases ih h with h2 | ⟨c0, hc0, h2⟩
          · exact Or.inl (List.mem_cons_of_mem c h2)
          · exact Or.inr ⟨c0, List.mem_cons_of_mem c hc0, h2⟩

theorem good_codes_mark_used_first {p : AuthCodeRec → Bool} :
    ∀ {l : List AuthCodeRec}, good_codes l →
      good_codes (mark_used_first p l) := by
  intro l
  induction l with
  | nil => intro h; exact h
  | cons c l ih =>
      intro h
      by_cases hc : p c = true
      · simp only [mark_used_first, hc, if_true]
        refine ⟨?_, h.2⟩
        intro hu
        simp at hu
      · simp only [mark_used_first, hc]
        simp only [Bool.false_eq_true, if_false]
        refine ⟨?_, ih h.2⟩
        intro hu c2 hc2
        rcases mem_mark_used_first hc2 with h2 | ⟨c0, hc0, rfl⟩
        · exact h.1 hu c2 h2
        · exact h.1 hu c0 hc0

theorem good_codes_create (tg : Int) (code : String) (now : Nat)
    (s : AuthState) (h : good_codes s.codes) :
    good_codes (create_auth_code tg code now s).codes := by
  refine good_codes_append (good_codes_map ?_ ?_ h) ?_
  · intro c
    split <;> rfl
  · intro c hc
    split at hc
    · simp at hc
    · exact hc
  · intro c hc hu
    obtain ⟨c0, hc0, rfl⟩ := List.mem_map.mp hc
    by_cases hb : (c0.telegramId == tg && c0.used == false) = true
    · rw [if_pos hb] at hu
      simp at hu
    · rw [if_neg hb] at hu ⊢
      show c0.telegramId ≠ tg
      intro hcontra
      apply hb
      simp [hcontra, hu]

theorem good_codes_verify (tg : Int) (code : String) (newUid now : Nat)
    (s : AuthState) (h : good_codes s.codes) :
    good_codes (verify_auth_code tg code newUid now s).2.codes := by
  rw [verify_auth_code_codes]
  cases exactlyOne (s.codes.filter
      (auth_code_pred tg (normalize_code code) now)) with
  | none => exact h
  | some c0 => exact good_codes_mark_used_first h

/-- States of the auth-code store reachable from an empty database by any
interleaving of `create_auth_code` and `verify_auth_code` calls. -/
inductive ReachableAuth : AuthState → Prop where
  | init : ReachableAuth { users := [], codes := [], sessions := [] }
  | mk_code (tg : Int) (code : String) (now : Nat) {s : AuthState} :
      ReachableAuth s → ReachableAuth (create_auth_code tg code now s)
  | exchange (tg : Int) (code : String) (newUid now : Nat) {s : AuthState} :
      ReachableAuth s → ReachableAuth (verify_auth_code tg code newUid now s).2

theorem reachable_good_codes {s : AuthState} (h : ReachableAuth s) :
    good_codes s.codes := by
  induction h with
  | init => trivial
  | mk_code tg code now hr ih => exact good_codes_create tg code now _ ih
  | exchange tg code newUid now hr ih =>
      exact good_codes_verify tg code newUid now _ ih

theorem good_codes_filter_length {l : List AuthCodeRec}
    (h : good_codes l) (q : AuthCodeRec → Bool) (tg : Int)
    (hq : ∀ c, q c = true → c.used = false ∧ c.telegramId = tg) :
    (l.filter q).length ≤ 1 := by
  induction l with
  | nil => simp
  | cons c l ih =>
      by_cases hc : q c = true
      · obtain ⟨hu, htg⟩ := hq c hc
        have hempty : l.filter q = [] := by
          rw [List.filter_eq_nil_iff]
          intro c2 hc2 hcontra
          exact h.1 hu c2 hc2 (by rw [(hq c2 hcontra).2, htg])
        simp [List.filter_cons, hc, hempty]
      · simp only [List.filter_cons, hc]
        simp only [Bool.false_eq_true, if_false]
        exact ih h.2

theorem good_codes_split {c : AuthCodeRec} :
    ∀ {pre post : List AuthCodeRec}, good_codes (pre ++ c :: post) →
      c.used = false → ∀ c2 ∈ post, c2.telegramId ≠ c.telegramId := by
  intro pre
  induction pre with
  | nil => intro post h hu; exact h.1 hu
  | cons d pre ih => intro post h hu; exact ih h.2 hu

/-- C9: In every state reachable through `create_auth_code` and
`verify_auth_code`, each telegram id has at most one simultaneously
unused and unexpired code, and a successful exchange always consumes the
most recently created code of that telegram id (no code created after it
carries the same telegram id). -/
theorem c9_single_active_code (s : AuthState) (hs : ReachableAuth s)
    (tg : Int) (now : Nat) :
    ((s.codes.filter (fun c =>
        c.used == false && decide (now < c.expiresAt)
          && c.telegramId == tg)).length ≤ 1)
    ∧ (∀ (code : String) (uid : Nat) (u : UserRec),
        (verify_auth_code tg code uid now s).1 = some u →
        ∃ pre c post, s.codes = pre ++ c :: post ∧
          c.telegramId = tg ∧ c.used = false ∧
          ∀ c2 ∈ post, c2.telegramId ≠ tg) := by
  have hg := reachable_good_codes hs
  constructor
  · refine good_codes_filter_length hg _ tg ?_
    intro c hc
    simp only [Bool.and_eq_true, beq_iff_eq] at hc
    exact ⟨hc.1.1, hc.2⟩
  · intro code uid u h
    unfold verify_auth_code at h
    cases hm : exactlyOne (s.codes.filter
        (auth_code_pred tg (normalize_code code) now)) with
    | none => rw [hm] at h; simp at h
    | some c0 =>
        have hl := exactlyOne_eq_some hm
        have hc : c0 ∈ s.codes.filter
            (auth_code_pred tg (normalize_code code) now) := by
          rw [hl]; exact List.mem_singleton.mpr rfl
        have hp := List.of_mem_filter hc
        have hcs := List.mem_of_mem_filter hc
        simp only [auth_code_pred, Bool.and_eq_true, beq_iff_eq,
          decide_eq_true_eq] at hp
        obtain ⟨pre, post, hsplit⟩ := List.append_of_mem hcs
        refine ⟨pre, c0, post, hsplit, hp.1.1.1, hp.2, ?_⟩
        intro c2 hc2
        rw [← hp.1.1.1]
        exact good_codes_split (hsplit ▸ hg) hp.2 c2 hc2

/-- Witness for C9: after one `create_auth_code` on the empty database the
unused-and-unexpired count for that telegram id is at most one. -/
theorem c9_single_active_code_witness :
    ((create_auth_code 7 "AB" 0
        { users := [], codes := [], sessions := [] }).codes.filter (fun c =>
        c.used == false && decide ((0 : Nat) < c.expiresAt)
          && c.telegramId == 7)).length ≤ 1 :=
  (c9_single_active_code _ (ReachableAuth.mk_code 7 "AB" 0 ReachableAuth.init)
    7 0).1

/-! ## Editor.js block rendering (src/services/post.py lines 53-133) -/

/-- Model of Python `str(n)` for naturals (`Nat.repr` is kept out of the
embedding so that decimal printing stays provably injective).  The fuel
argument of the helper is structurally decreasing; `n` itself is enough
fuel. -/
def nat_digits_aux : Nat → Nat → List Nat
  | 0, _ => []
  | _ + 1, 0 => []
  | fuel + 1, n + 1 => ((n + 1) % 10) :: nat_digits_aux fuel ((n + 1) / 10)

/-- Decimal rendering of a natural number, as Python `str` does. -/
def py_str_nat (n : Nat) : String :=
  if n = 0 then "0"
  else ⟨(nat_digits_aux n n).reverse.map (fun d => Char.ofNat (48 + d))⟩

/-- `escape_attr` (src/services/post.py lines 60-68).  The Python chain of
five `str.replace` calls equals this single character pass because no
replacement string contains a character substituted by a later pass. -/
def escape_attr (s : String) : String :=
  ⟨s.data.flatMap (fun c =>
    if c = '&' then "&amp;".data
    else if c = '<' then "&lt;".data
    else if c = '>' then "&gt;".data
    else if c = '"' then "&quot;".data
    else if c = '\'' then "&#x27;".data
    else [c])⟩

/-- The tag whitelist of `sanitize_inline_html`. -/
def sanitize_inline_allowed_tags : List String :=
  ["b", "i", "u", "s", "a", "code", "mark", "br"]

/-- The attribute whitelist of `sanitize_inline_html`. -/
def sanitize_inline_allowed_attrs : List (String × List String) :=
  [("a", ["href"])]

/-- `sanitize_inline_html` (src/services/post.py lines 53-57):
`bleach.clean(text, tags=..., attributes=..., strip=True)` with the fixed
whitelists above.  The bleach library itself is abstracted as `clean`. -/
def sanitize_inline_html
    (clean : String → List String → List (String × List String) → Bool → String)
    (text : String) : String :=
  clean text sanitize_inline_allowed_tags sanitize_inline_allowed_attrs true

/-- An Editor.js block: `block.get("type")` plus the `data.get(...)`
fields (with their Python defaults) read by `render_blocks_to_html`. -/
structure EditorBlock where
  type : String
  text : String := ""
  level : Int := 2
  fileUrl : String := ""
  caption : String := ""
  stretched : Bool := false
  style : String := "unordered"
  items : List String := []
  code : String := ""
deriving DecidableEq, Repr

/-- The `src` value of an image block: kept (escaped) only for a nonempty
URL starting with "/" or "https://", otherwise emptied. -/
def image_src (url : String) : String :=
  if url != "" && (starts_with url "/" || starts_with url "https://")
  then escape_attr url else ""

/-- The `<figcaption>` fragment of an image block. -/
def figcaption_html (caption : String) : String :=
  "<figcaption class=\"text-center text-gray-500 mt-2\">" ++ caption
    ++ "</figcaption>"

/-- The `<figure>` f-string of an image block, whitespace as in Python. -/
def image_figure_html (url caption_attr stretched caption_html : String) :
    String :=
  "<figure class=\"my-4\">\n                <img src=\"" ++ url
    ++ "\" alt=\"" ++ caption_attr ++ "\" class=\"" ++ stretched
    ++ " rounded-lg\">\n                " ++ caption_html
    ++ "\n            </figure>"

/-- The `<cite>` fragment of a quote block. -/
def cite_html (caption : String) : String :=
  "<cite class=\"text-gray-500 text-sm\">" ++ caption ++ "</cite>"

/-- The `<blockquote>` f-string of a quote block. -/
def quote_html (text caption_html : String) : String :=
  "<blockquote class=\"border-l-4 border-gray-300 pl-4 italic my-4\">\n                <p>"
    ++ text ++ "</p>\n                " ++ caption_html
    ++ "\n            </blockquote>"

/-- One iteration of the block loop in `render_blocks_to_html`
(src/services/post.py lines 77-131): the HTML appended for this block, or
`none` for an unrecognized type. -/
def render_block
    (clean : String → List String → List (String × List String) → Bool → String)
    (b : EditorBlock) : Option String :=
  if b.type = "paragraph" then
    some ("<p>" ++ sanitize_inline_html clean b.text ++ "</p>")
  else if b.type = "header" then
    some ("<h" ++ py_str_nat (max 2 (min 4 b.level)).toNat ++ ">"
      ++ sanitize_inline_html clean b.text
      ++ "</h" ++ py_str_nat (max 2 (min 4 b.level)).toNat ++ ">")
  else if b.type = "image" then
    some (image_figure_html (image_src b.fileUrl) (escape_attr b.caption)
      (if b.stretched then "w-full" else "max-w-full")
      (if sanitize_inline_html clean b.caption != "" then
        figcaption_html (sanitize_inline_html clean b.caption) else ""))
  else if b.type = "list" then
    some ("<" ++ (if b.style = "ordered" then "ol" else "ul")
      ++ " class=\""
      ++ (if b.style = "ordered" then "list-decimal ml-6" else "list-disc ml-6")
      ++ "\">"
      ++ String.join (b.items.map (fun item =>
          "<li>" ++ sanitize_inline_html clean item ++ "</li>"))
      ++ "</" ++ (if b.style = "ordered" then "ol" else "ul") ++ ">")
  else if b.type = "quote" then
    some (quote_html (sanitize_inline_html clean b.text)
      (if sanitize_inline_html clean b.caption != "" then
        cite_html (sanitize_inline_html clean b.caption) else ""))
  else if b.type = "delimiter" then
    some "<hr class=\"my-8 border-gray-200\">"
  else if b.type = "code" then
    some ("<pre class=\"bg-gray-100 p-4 rounded-lg overflow-x-auto\"><code>"
      ++ escape_attr b.code ++ "</code></pre>")
  else none

/-- `render_blocks_to_html` (src/services/post.py lines 71-133): `none`
stands for a falsy `blocks_data` or a missing "blocks" key. -/
def render_blocks_to_html
    (clean : String → List String → List (String × List String) → Bool → String)
    (blocks_data : Option (List EditorBlock)) : String :=
  match blocks_data with
  | none => ""
  | some blocks => String.intercalate "\n" (blocks.filterMap (render_block clean))

/-- C4: Editor-block rendering sanitizes its output: paragraph, header,
list and quote text all pass through `sanitize_inline_html` (whose
whitelist is fixed), an image block whose URL starts with neither "/" nor
"https://" is rendered with an empty `src`, and header levels are clamped
into 2..4. -/
theorem c4_render_blocks_sanitized
    (clean : String → List String → List (String × List String) → Bool → String)
    (blocks : List EditorBlock) (b : EditorBlock) :
    (render_blocks_to_html clean (some blocks)
        = String.intercalate "\n" (blocks.filterMap (render_block clean)))
    ∧ (sanitize_inline_html clean b.text
        = clean b.text ["b", "i", "u", "s", "a", "code", "mark", "br"]
            [("a", ["href"])] true)
    ∧ (b.type = "paragraph" → render_block clean b
        = some ("<p>" ++ sanitize_inline_html clean b.text ++ "</p>"))
    ∧ (b.type = "header" → ∃ lv : Nat, 2 ≤ lv ∧ lv ≤ 4 ∧
        render_block clean b
          = some ("<h" ++ py_str_nat lv ++ ">"
              ++ sanitize_inline_html clean b.text
              ++ "</h" ++ py_str_nat lv ++ ">"))
    ∧ (b.type = "list" → render_block clean b
        = some ("<" ++ (if b.style = "ordered" then "ol" else "ul")
            ++ " class=\""
            ++ (if b.style = "ordered" then "list-decimal ml-6"
                else "list-disc ml-6")
            ++ "\">"
            ++ String.join (b.items.map (fun item =>
                "<li>" ++ sanitize_inline_html clean item ++ "</li>"))
            ++ "</" ++ (if b.style = "ordered" then "ol" else "ul") ++ ">"))
    ∧ (b.type = "quote" → render_block clean b
        = some (quote_html (sanitize_inline_html clean b.text)
            (if sanitize_inline_html clean b.caption != "" then
              cite_html (sanitize_inline_html clean b.caption) else "")))
    ∧ (b.type = "image" → starts_with b.fileUrl "/" = false →
        starts_with b.fileUrl "https://" = false →
        image_src b.fileUrl = "" ∧ render_block clean b
          = some (image_figure_html "" (escape_attr b.caption)
              (if b.stretched then "w-full" else "max-w-full")
              (if sanitize_inline_html clean b.caption != "" then
                figcaption_html (sanitize_inline_html clean b.caption)
                else ""))) := by
  refine ⟨rfl, rfl, ?_, ?_, ?_, ?_, ?_⟩
  · intro h
    simp [render_block, h]
  · intro h
    refine ⟨(max 2 (min 4 b.level)).toNat, by omega, by omega, ?_⟩
    simp [render_block, h]
  · intro h
    simp [render_block, h]
  · intro h
    simp [render_block, h]
  · intro h h1 h2
    have hsrc : image_src b.fileUrl = "" := by
      simp [image_src, h1, h2]
    refine ⟨hsrc, ?_⟩
    simp only [render_block, h]
    rw [hsrc]
    simp

/-- A stand-in for bleach.clean in the C4 witness. -/
def demo_clean (t : String) (_ : List String)
    (_ : List (String × List String)) (_ : Bool) : String := t

/-- Witness for C4: a concrete paragraph block renders its text through
the inline sanitizer. -/
theorem c4_render_blocks_sanitized_witness :
    render_block demo_clean { type := "paragraph", text := "hi" } =
      some ("<p>" ++ sanitize_inline_html demo_clean "hi" ++ "</p>") :=
  (c4_render_blocks_sanitized demo_clean []
    { type := "paragraph", text := "hi" }).2.2.1 rfl

/-! ## Comment service (src/services/comment.py) -/

/-- `MAX_COMMENT_LENGTH` (src/services/comment.py line 12). -/
def MAX_COMMENT_LENGTH : Nat := 2000

/-- A row of the `comments` table as written by `create_comment`. -/
structure CommentRec where
  postId : Nat
  authorId : Nat
  content : String
  parentId : Option Nat
  isApproved : Bool
deriving DecidableEq, Repr

/-- The comment row built by `create_comment` (auto-approved, with the
bleach-stripped content). -/
def new_comment (cleanStrip : String → String) (postId authorId : Nat)
    (content : String) (parentId : Option Nat) : CommentRec :=
  { postId := postId, authorId := authorId,
    content := cleanStrip (py_strip content),
    parentId := parentId, isApproved := true }

/-- `CommentService.create_comment` (src/services/comment.py lines 19-52):
strip the input, clean it with `bleach.clean(..., tags=[], strip=True)`
(abstracted as `cleanStrip`), reject on overlength or emptiness, otherwise
persist the cleaned text auto-approved.  `Except.error` models the raised
`ValueError`. -/
def create_comment (cleanStrip : String → String) (postId authorId : Nat)
    (content : String) (parentId : Option Nat) (db : List CommentRec) :
    Except String CommentRec × List CommentRec :=
  if (cleanStrip (py_strip content)).length > MAX_COMMENT_LENGTH then
    (Except.error "Comment exceeds maximum length", db)
  else if cleanStrip (py_strip content) = "" then
    (Except.error "Comment cannot be empty", db)
  else
    (Except.ok (new_comment cleanStrip postId authorId content parentId),
     db ++ [new_comment cleanStrip postId authorId content parentId])

/-- C6: Comments are stored with all HTML stripped.  Given that the
bleach strip pass leaves no "<" in its output, `create_comment` persists
the bleach-stripped text, errors exactly when the stripped content is
empty or longer than 2000 characters, and on error creates nothing. -/
theorem c6_comment_stripped (cleanStrip : String → String)
    (hclean : ∀ t : String, ∀ c ∈ (cleanStrip t).data, c ≠ '<')
    (postId authorId : Nat) (content : String) (parentId : Option Nat)
    (db : List CommentRec) :
    ((∃ e, (create_comment cleanStrip postId authorId content parentId
        db).1 = Except.error e) ↔
      (cleanStrip (py_strip content) = "" ∨
        (cleanStrip (py_strip content)).length > MAX_COMMENT_LENGTH))
    ∧ (∀ e, (create_comment cleanStrip postId authorId content parentId
        db).1 = Except.error e →
        (create_comment cleanStrip postId authorId content parentId db).2
          = db)
    ∧ (∀ c, (create_comment cleanStrip postId authorId content parentId
        db).1 = Except.ok c →
        c.content = cleanStrip (py_strip content)
          ∧ (∀ ch ∈ c.content.data, ch ≠ '<')
          ∧ (create_comment cleanStrip postId authorId content parentId
              db).2 = db ++ [c]) := by
  by_cases hlen : (cleanStrip (py_strip content)).length > MAX_COMMENT_LENGTH
  · have hpair : create_comment cleanStrip postId authorId content parentId db
        = (Except.error "Comment exceeds maximum length", db) := by
      unfold create_comment
      rw [if_pos hlen]
    refine ⟨⟨fun _ => Or.inr hlen, fun _ => ?_⟩, fun e _ => ?_, fun c hc => ?_⟩
    · exact ⟨"Comment exceeds maximum length", by rw [hpair]⟩
    · rw [hpair]
    · rw [hpair] at hc
      exact absurd hc (by simp)
  · by_cases hempty : cleanStrip (py_strip content) = ""
    · have hpair : create_comment cleanStrip postId authorId content parentId
          db = (Except.error "Comment cannot be empty", db) := by
        unfold create_comment
        rw [if_neg hlen, if_pos hempty]
      refine ⟨⟨fun _ => Or.inl hempty, fun _ => ?_⟩, fun e _ => ?_,
        fun c hc => ?_⟩
      · exact ⟨"Comment cannot be empty", by rw [hpair]⟩
      · rw [hpair]
      · rw [hpair] at hc
        exact absurd hc (by simp)
    · have hpair : create_comment cleanStrip postId authorId content parentId
          db = (Except.ok (new_comment cleanStrip postId authorId content
                  parentId),
                db ++ [new_comment cleanStrip postId authorId content
                  parentId]) := by
        unfold create_comment
        rw [if_neg hlen, if_neg hempty]
      refine ⟨⟨fun ⟨e, he⟩ => ?_, fun h => ?_⟩, fun e he => ?_, fun c hc => ?_⟩
      · rw [hpair] at he
        exact absurd he (by simp)
      · rcases h with h | h
        · exact absurd h hempty
        · exact absurd h hlen
      · rw [hpair] at he
        exact absurd he (by simp)
      · rw [hpair] at hc
        have hcc := (Except.ok.inj hc).symm
        refine ⟨by rw [hcc]; rfl, ?_, by rw [hpair, hcc]⟩
        rw [hcc]
        exact hclean (py_strip content)

/-- A stand-in for `bleach.clean(..., tags=[], strip=True)` in the C6
witness: drop every "<". -/
def demo_strip (s : String) : String :=
  ⟨s.data.filter (fun c => c != '<')⟩

/-- The comment record produced in the C6 witness. -/
def demo_comment : CommentRec :=
  { postId := 1, authorId := 2, content := demo_strip (py_strip "hi"),
    parentId := none, isApproved := true }

/-- Witness for C6: a concrete comment is persisted with its cleaned
content. -/
theorem c6_comment_stripped_witness :
    demo_comment.content = demo_strip (py_strip "hi")
      ∧ (∀ ch ∈ demo_comment.content.data, ch ≠ '<')
      ∧ (create_comment demo_strip 1 2 "hi" none []).2
          = [] ++ [demo_comment] :=
  (c6_comment_stripped demo_strip
    (by
      intro t c hc
      have := (List.mem_filter.mp hc).2
      simpa using this)
    1 2 "hi" none []).2.2 demo_comment rfl

/-! ## Slug generation (src/services/post.py lines 19-24 and 159-166) -/

/-- The regex class `\w`, modelled over ASCII: letters, digits, "_". -/
def is_word_char (c : Char) : Bool :=
  c.isAlphanum || c == '_'

/-- The regex class `[-\s]` of the second substitution in `slugify`. -/
def dashish (c : Char) : Bool :=
  c == '-' || c.isWhitespace

/-- Collapse runs of "-" to a single "-" (the `+` of `re.sub(r"[-\s]+",
"-", ...)` after every matched character has been mapped to "-"). -/
def squeeze_dashes : List Char → List Char
  | [] => []
  | [c] => [c]
  | c :: d :: cs =>
      if c == '-' && d == '-' then squeeze_dashes (d :: cs)
      else c :: squeeze_dashes (d :: cs)

/-- `slugify` (src/services/post.py lines 19-24): lowercase, drop
characters outside `[\w\s-]`, collapse `[-\s]+` runs to "-", strip "-". -/
def slugify (text : String) : String :=
  ⟨((squeeze_dashes
      (((py_lower text).data.filter (fun c =>
          is_word_char c || c.isWhitespace || c == '-')).map
        (fun c => if dashish c then '-' else c))).dropWhile
      (fun c => c == '-')).reverse.dropWhile (fun c => c == '-')
    |>.reverse⟩

/-- The slug-probing loop of `create_post` (src/services/post.py lines
159-166): try `slug`, then `base-counter`, `base-(counter+1)`, ... while
`get_by_slug` finds a post.  `existing` is the set of slugs present;
fuel makes the recursion structural. -/
def find_free_slug (existing : List String) (base : String) :
    Nat → String → Nat → Option String
  | 0, _, _ => none
  | fuel + 1, slug, counter =>
      if existing.contains slug then
        find_free_slug existing base fuel
          (base ++ "-" ++ py_str_nat counter) (counter + 1)
      else some slug

/-- The slug chosen by `create_post` for a given title: probe starting
from `slugify title` with counter 1.  `existing.length + 1` fuel is shown
sufficient below. -/
def create_post_slug (existing : List String) (title : String) :
    Option String :=
  find_free_slug existing (slugify title) (existing.length + 1)
    (slugify title) 1

theorem nat_digits_aux_lt_ten :
    ∀ fuel n, ∀ d ∈ nat_digits_aux fuel n, d < 10 := by
  intro fuel
  induction fuel with
  | zero => intro n d hd; simp [nat_digits_aux] at hd
  | succ fuel ih =>
      intro n d hd
      match n with
      | 0 => simp [nat_digits_aux] at hd
      | k + 1 =>
          simp only [nat_digits_aux, List.mem_cons] at hd
          rcases hd with hd | hd
          · rw [hd]; exact Nat.mod_lt _ (by omega)
          · exact ih _ d hd

theorem nat_digits_aux_ofDigits :
    ∀ fuel n, n ≤ fuel → Nat.ofDigits 10 (nat_digits_aux fuel n) = n := by
  intro fuel
  induction fuel with
  | zero =>
      intro n hn
      have : n = 0 := by omega
      subst this
      simp [nat_digits_aux]
  | succ fuel ih =>
      intro n hn
      match n with
      | 0 => simp [nat_digits_aux]
      | k + 1 =>
          have hdiv : (k + 1) / 10 ≤ fuel := by
            have := Nat.div_lt_self (Nat.succ_pos k) (by omega : 1 < 10)
            omega
          simp only [nat_digits_aux, Nat.ofDigits_cons, ih _ hdiv]
          omega

theorem digit_char_inj :
    ∀ a, a < 10 → ∀ b, b < 10 →
      Char.ofNat (48 + a) = Char.ofNat (48 + b) → a = b := by
  decide

theorem digit_list_map_inj :
    ∀ (A B : List Nat), (∀ d ∈ A, d < 10) → (∀ d ∈ B, d < 10) →
      A.map (fun d => Char.ofNat (48 + d)) =
        B.map (fun d => Char.ofNat (48 + d)) → A = B := by
  intro A
  induction A with
  | nil =>
      intro B _ _ h
      cases B with
      | nil => rfl
      | cons b B => simp at h
  | cons a A ih =>
      intro B hA hB h
      cases B with
      | nil => simp at h
      | cons b B =>
          simp only [List.map_cons, List.cons.injEq] at h
          have hab := digit_char_inj a (hA a (List.mem_cons_self a A))
            b (hB b (List.mem_cons_self b B)) h.1
          rw [hab, ih B (fun d hd => hA d (List.mem_cons_of_mem a hd))
            (fun d hd => hB d (List.mem_cons_of_mem b hd)) h.2]

theorem py_str_nat_data (n : Nat) (hn : n ≠ 0) :
    (py_str_nat n).data = (nat_digits_aux n n).reverse.map
      (fun d => Char.ofNat (48 + d)) := by
  simp [py_str_nat, hn]

theorem py_str_nat_inj : ∀ m n : Nat, py_str_nat m = py_str_nat n → m = n := by
  have digits_eq : ∀ m n : Nat, m ≠ 0 → n ≠ 0 →
      py_str_nat m = py_str_nat n →
      nat_digits_aux m m = nat_digits_aux n n := by
    intro m n hm hn h
    have hdata := congrArg String.data h
    rw [py_str_nat_data m hm, py_str_nat_data n hn] at hdata
    have hAB := digit_list_map_inj (nat_digits_aux m m).reverse
      (nat_digits_aux n n).reverse
      (fun d hd => nat_digits_aux_lt_ten m m d (List.mem_reverse.mp hd))
      (fun d hd => nat_digits_aux_lt_ten n n d (List.mem_reverse.mp hd))
      hdata
    exact List.reverse_injective hAB
  have zero_case : ∀ n : Nat, n ≠ 0 → py_str_nat 0 ≠ py_str_nat n := by
    intro n hn h
    have hdata := congrArg String.data h
    rw [py_str_nat_data n hn] at hdata
    have h0 : ([0] : List Nat).map (fun d => Char.ofNat (48 + d))
        = (nat_digits_aux n n).reverse.map
            (fun d => Char.ofNat (48 + d)) := by
      simpa [py_str_nat] using hdata
    have hAB := digit_list_map_inj [0] (nat_digits_aux n n).reverse
      (fun d hd => by simp at hd; omega)
      (fun d hd => nat_digits_aux_lt_ten n n d (List.mem_reverse.mp hd)) h0
    have hrev : nat_digits_aux n n = [0] := by
      have h2 := congrArg List.reverse hAB
      simpa using h2.symm
    have hof := nat_digits_aux_ofDigits n n (le_refl n)
    rw [hrev] at hof
    simp [Nat.ofDigits] at hof
    exact hn hof.symm
  intro m n h
  by_cases hm : m = 0
  · by_cases hn : n = 0
    · rw [hm, hn]
    · rw [hm] at h
      exact absurd h (zero_case n hn)
  · by_cases hn : n = 0
    · rw [hn] at h
      exact absurd h.symm (zero_case m hm)
    · have hq := digits_eq m n hm hn h
      have h1 := nat_digits_aux_ofDigits m m (le_refl m)
      have h2 := nat_digits_aux_ofDigits n n (le_refl n)
      rw [hq] at h1
      omega

theorem string_data_ext {a b : String} (h : a.data = b.data) : a = b := by
  cases a; cases b; exact congrArg String.mk h

/-- The i-th slug probed by `create_post` (counter starting at 1): the
base slug itself, then `base-1`, `base-2`, ... -/
def slug_candidate (base : String) (i : Nat) : String :=
  if i = 0 then base else base ++ "-" ++ py_str_nat i

theorem slug_candidate_inj (base : String) :
    Function.Injective (slug_candidate base) := by
  intro i j h
  match i, j with
  | 0, 0 => rfl
  | 0, j + 1 =>
      exfalso
      unfold slug_candidate at h
      rw [if_pos rfl, if_neg (Nat.succ_ne_zero j)] at h
      have hlen := congrArg String.length h
      rw [String.length_append, String.length_append] at hlen
      have hone : ("-" : String).length = 1 := rfl
      rw [hone] at hlen
      omega
  | i + 1, 0 =>
      exfalso
      unfold slug_candidate at h
      rw [if_neg (Nat.succ_ne_zero i), if_pos rfl] at h
      have hlen := congrArg String.length h
      rw [String.length_append, String.length_append] at hlen
      have hone : ("-" : String).length = 1 := rfl
      rw [hone] at hlen
      omega
  | i + 1, j + 1 =>
      unfold slug_candidate at h
      rw [if_neg (Nat.succ_ne_zero i), if_neg (Nat.succ_ne_zero j)] at h
      have hdata := congrArg String.data h
      have hdata2 : (base ++ "-").data ++ (py_str_nat (i + 1)).data
          = (base ++ "-").data ++ (py_str_nat (j + 1)).data := hdata
      have := List.append_cancel_left hdata2
      exact py_str_nat_inj _ _ (string_data_ext this)

theorem candidates_not_all_mem (existing : List String) (base : String) :
    ¬ (∀ i < existing.length + 1, slug_candidate base i ∈ existing) := by
  intro hall
  have hsub : (Finset.range (existing.length + 1)).image
      (slug_candidate base) ⊆ existing.toFinset := by
    intro s hs
    obtain ⟨i, hi, rfl⟩ := Finset.mem_image.mp hs
    exact List.mem_toFinset.mpr (hall i (Finset.mem_range.mp hi))
  have hcard := Finset.card_le_card hsub
  rw [Finset.card_image_of_injective _ (slug_candidate_inj base),
    Finset.card_range] at hcard
  have := existing.toFinset_card_le
  omega

theorem find_free_slug_not_mem (existing : List String) (base : String) :
    ∀ fuel slug counter s,
      find_free_slug existing base fuel slug counter = some s →
      s ∉ existing := by
  intro fuel
  induction fuel with
  | zero => intro slug counter s h; simp [find_free_slug] at h
  | succ fuel ih =>
      intro slug counter s h
      by_cases hc : existing.contains slug = true
      · simp only [find_free_slug, hc, if_true] at h
        exact ih _ _ _ h
      · simp only [find_free_slug, hc] at h
        simp only [Bool.false_eq_true, if_false, Option.some.injEq] at h
        rw [← h]
        intro hmem
        exact hc (by simpa using hmem)

theorem find_free_slug_shape (existing : List String) (base : String) :
    ∀ fuel slug counter s,
      find_free_slug existing base fuel slug counter = some s →
      s = slug ∨ ∃ k, counter ≤ k ∧ s = base ++ "-" ++ py_str_nat k := by
  intro fuel
  induction fuel with
  | zero => intro slug counter s h; simp [find_free_slug] at h
  | succ fuel ih =>
      intro slug counter s h
      by_cases hc : existing.contains slug = true
      · simp only [find_free_slug, hc, if_true] at h
        rcases ih _ _ _ h with h2 | ⟨k, hk, h2⟩
        · exact Or.inr ⟨counter, le_refl _, h2⟩
        · exact Or.inr ⟨k, by omega, h2⟩
      · simp only [find_free_slug, hc] at h
        simp only [Bool.false_eq_true, if_false, Option.some.injEq] at h
        exact Or.inl h.symm

theorem find_free_slug_none (existing : List String) (base : String) :
    ∀ fuel slug counter,
      find_free_slug existing base fuel slug counter = none →
      ∀ i < fuel, (if i = 0 then slug
        else base ++ "-" ++ py_str_nat (counter + i - 1)) ∈ existing := by
  intro fuel
  induction fuel with
  | zero => intro slug counter _ i hi; omega
  | succ fuel ih =>
      intro slug counter h i hi
      by_cases hc : existing.contains slug = true
      · have h2 : find_free_slug existing base fuel
            (base ++ "-" ++ py_str_nat counter) (counter + 1) = none := by
          simp only [find_free_slug, hc, if_true] at h
          exact h
        match i with
        | 0 => simpa using hc
        | i + 1 =>
            have h3 := ih _ _ h2 i (by omega)
            rw [if_neg (Nat.succ_ne_zero i)]
            match i with
            | 0 => simpa using h3
            | i + 1 =>
                rw [if_neg (Nat.succ_ne_zero i)] at h3
                have harg : counter + 1 + (i + 1) - 1
                    = counter + (i + 1 + 1) - 1 := by omega
                rw [harg] at h3
                exact h3
      · simp only [find_free_slug, hc] at h
        simp only [Bool.false_eq_true, if_false] at h
        exact absurd h (by simp)

/-- C7: Post slugs are unique: `create_post` probes the slugified title,
then `base-1`, `base-2`, ... in order; within `existing.length + 1` probes
it finds a slug used by no existing post, so adding the new post keeps all
slugs pairwise distinct. -/
theorem c7_slug_uniqueness (existing : List String) (title : String)
    (hnd : existing.Nodup) :
    ∃ s, create_post_slug existing title = some s ∧ s ∉ existing ∧
      (s :: existing).Nodup ∧
      (s = slugify title ∨
        ∃ k, 1 ≤ k ∧ s = slugify title ++ "-" ++ py_str_nat k) := by
  cases hres : create_post_slug existing title with
  | none =>
      exfalso
      have hall := find_free_slug_none existing (slugify title) _ _ _ hres
      apply candidates_not_all_mem existing (slugify title)
      intro i hi
      have hmem := hall i hi
      match i with
      | 0 => simpa [slug_candidate] using hmem
      | i + 1 =>
          rw [if_neg (Nat.succ_ne_zero i)] at hmem
          have harg : 1 + (i + 1) - 1 = i + 1 := by omega
          rw [harg] at hmem
          simpa [slug_candidate] using hmem
  | some s =>
      have hnot := find_free_slug_not_mem existing (slugify title) _ _ _ _ hres
      refine ⟨s, rfl, hnot, List.nodup_cons.mpr ⟨hnot, hnd⟩, ?_⟩
      rcases find_free_slug_shape existing (slugify title) _ _ _ _ hres
        with h | ⟨k, hk, h⟩
      · exact Or.inl h
      · exact Or.inr ⟨k, hk, h⟩

/-- Witness for C7: with slugs "hello" and "hello-1" taken, the title
"Hello" gets the fresh slug "hello-2" and uniqueness is preserved. -/
theorem c7_slug_uniqueness_witness :
    ∃ s, create_post_slug ["hello", "hello-1"] "Hello" = some s ∧
      s ∉ ["hello", "hello-1"] ∧ (s :: ["hello", "hello-1"]).Nodup ∧
      (s = slugify "Hello" ∨
        ∃ k, 1 ≤ k ∧ s = slugify "Hello" ++ "-" ++ py_str_nat k) :=
  c7_slug_uniqueness ["hello", "hello-1"] "Hello" (by decide)

/-! ## Media service (src/services/media.py) -/

/-- `MediaType` (src/db/models/media.py). -/
inductive MediaType where
  | image
  | audio
  | video
deriving DecidableEq, Repr

/-- The `.value` string of a `MediaType`. -/
def media_type_value : MediaType → String
  | .image => "image"
  | .audio => "audio"
  | .video => "video"

/-- `ALLOWED_MIME_TYPES` (src/services/media.py lines 19-31). -/
def allowed_mime_types : MediaType → List String
  | .image => ["image/jpeg", "image/png", "image/gif", "image/webp",
      "image/svg+xml"]
  | .audio => ["audio/mpeg", "audio/mp3", "audio/wav", "audio/ogg",
      "audio/aac", "audio/flac", "audio/x-m4a", "audio/mp4"]
  | .video => ["video/mp4", "video/webm", "video/ogg", "video/quicktime",
      "video/x-msvideo", "video/x-matroska"]

/-- `ALLOWED_EXTENSIONS` (src/services/media.py lines 34-38). -/
def allowed_extensions : MediaType → List String
  | .image => [".jpg", ".jpeg", ".png", ".gif", ".webp", ".svg"]
  | .audio => [".mp3", ".wav", ".ogg", ".aac", ".flac", ".m4a"]
  | .video => [".mp4", ".webm", ".ogv", ".mov", ".avi", ".mkv"]

/-- `os.path.splitext` for names without path separators: split at the
last ".", unless every character before that dot is itself a dot. -/
def splitext (s : String) : String × String :=
  match s.data.reverse.findIdx? (fun c => c == '.') with
  | none => (s, "")
  | some k =>
      if (s.data.take (s.data.length - 1 - k)).any (fun c => c != '.') then
        (⟨s.data.take (s.data.length - 1 - k)⟩,
         ⟨s.data.drop (s.data.length - 1 - k)⟩)
      else (s, "")

/-- `sanitize_filename` (src/services/media.py lines 41-53), with the
regex `\w` modelled over ASCII.  Python's `name[:200 - len(ext)]` slice is
modelled with truncated subtraction. -/
def sanitize_filename (filename : String) : String :=
  let f1 := (filename.data.map (fun c =>
      if c == '/' || c == '\\' then '_' else c)).filter
    (fun c => c != '\x00')
  let f2 := f1.dropWhile (fun c => c == '.')
  let f3 := f2.map (fun c =>
      if is_word_char c || c == '-' || c == '.' then c else '_')
  let f4 := if f3.length > 200 then
      ((splitext ⟨f3⟩).1.data.take (200 - (splitext ⟨f3⟩).2.data.length))
        ++ (splitext ⟨f3⟩).2.data
    else f3
  if f4.isEmpty then "unnamed" else ⟨f4⟩

/-- `get_media_type_from_mime` (src/services/media.py lines 56-62); the
dict is walked in insertion order image, audio, video. -/
def get_media_type_from_mime (mime_type : String) : Option MediaType :=
  if (allowed_mime_types .image).contains (py_lower mime_type) then
    some .image
  else if (allowed_mime_types .audio).contains (py_lower mime_type) then
    some .audio
  else if (allowed_mime_types .video).contains (py_lower mime_type) then
    some .video
  else none

/-- `get_media_type_from_extension` (src/services/media.py lines 65-71). -/
def get_media_type_from_extension (filename : String) : Option MediaType :=
  if (allowed_extensions .image).contains (py_lower (splitext filename).2) then
    some .image
  else if (allowed_extensions .audio).contains
      (py_lower (splitext filename).2) then
    some .audio
  else if (allowed_extensions .video).contains
      (py_lower (splitext filename).2) then
    some .video
  else none

/-- `settings.max_image_size` (src/config.py, 10 MB). -/
def max_image_size : Nat := 10 * 1024 * 1024

/-- `settings.max_audio_size` (src/config.py, 50 MB). -/
def max_audio_size : Nat := 50 * 1024 * 1024

/-- `settings.max_video_size` (src/config.py, 100 MB). -/
def max_video_size : Nat := 100 * 1024 * 1024

/-- `MediaService._get_max_size` (src/services/media.py lines 306-314). -/
def get_max_size : MediaType → Nat
  | .image => max_image_size
  | .audio => max_audio_size
  | .video => max_video_size

/-- `MediaService._get_default_ext` (src/services/media.py lines 316-323). -/
def get_default_ext : MediaType → String
  | .image => ".jpg"
  | .audio => ".mp3"
  | .video => ".mp4"

/-- The parts of a starlette `UploadFile` read by `upload_file`; an empty
string stands for a missing (`None`) filename or content type, exactly as
the Python `or` chains treat them. -/
structure UploadFile where
  filename : String
  contentType : String
  size : Nat
deriving DecidableEq, Repr

/-- A row of the `media` table (src/db/models/media.py). -/
structure MediaRec where
  id : Nat
  postId : Option Nat
  uploaderId : Nat
  mediaType : MediaType
  filename : String
  originalName : String
  filePath : String
  fileSize : Nat
  mimeType : String
deriving DecidableEq, Repr

/-- Disk (paths with sizes) plus the `media` table. -/
structure MediaState where
  files : List (List String × Nat)
  media : List MediaRec
deriving DecidableEq, Repr

/-- `original_name = sanitize_filename(file.filename or "unnamed")`. -/
def upload_original_name (file : UploadFile) : String :=
  sanitize_filename (if file.filename == "" then "unnamed" else file.filename)

/-- `content_type = file.content_type or mimetypes.guess_type(...)[0] or
""`; the stdlib `mimetypes` table is abstracted as `guessType`. -/
def upload_content_type (guessType : String → Option String)
    (file : UploadFile) : String :=
  if file.contentType != "" then file.contentType
  else (guessType (upload_original_name file)).getD ""

/-- The media type determined by `upload_file`: from the MIME type first,
falling back to the extension. -/
def upload_media_type (guessType : String → Option String)
    (file : UploadFile) : Option MediaType :=
  match get_media_type_from_mime (upload_content_type guessType file) with
  | some t => some t
  | none => get_media_type_from_extension (upload_original_name file)

/-- The `ext_type and ext_type != media_type` consistency check. -/
def upload_ext_mismatch (file : UploadFile) (media_type : MediaType) : Bool :=
  match get_media_type_from_extension (upload_original_name file) with
  | some t => t != media_type
  | none => false

/-- `ext = os.path.splitext(original_name)[1].lower() or default`. -/
def upload_ext (file : UploadFile) (media_type : MediaType) : String :=
  if py_lower (splitext (upload_original_name file)).2 == "" then
    get_default_ext media_type
  else py_lower (splitext (upload_original_name file)).2

/-- `unique_filename = f"{uuid.uuid4()}{ext}"`; the random UUID is the
`uuidName` parameter. -/
def upload_unique_filename (file : UploadFile) (uuidName : String)
    (media_type : MediaType) : String :=
  uuidName ++ upload_ext file media_type

/-- The Media row inserted by `upload_file` on success. -/
def upload_media_rec (guessType : String → Option String) (file : UploadFile)
    (uploaderId : Nat) (postId : Option Nat) (uuidName : String)
    (newId : Nat) (media_type : MediaType) : MediaRec :=
  { id := newId, postId := postId, uploaderId := uploaderId,
    mediaType := media_type,
    filename := upload_unique_filename file uuidName media_type,
    originalName := upload_original_name file,
    filePath := media_type_value media_type ++ "s" ++ "/"
      ++ upload_unique_filename file uuidName media_type,
    fileSize := file.size,
    mimeType := upload_content_type guessType file }

/-- `MediaService.upload_file` (src/services/media.py lines 78-152): the
three validations in source order, then the disk write under
`uploadDir/<type>s/` and the insert.  `Except.error` models the raised
`ValueError` (messages abridged); on error nothing is written. -/
def upload_file (guessType : String → Option String) (uploadDir : List String)
    (file : UploadFile) (uploaderId : Nat) (postId : Option Nat)
    (uuidName : String) (newId : Nat) (st : MediaState) :
    Except String MediaRec × MediaState :=
  match upload_media_type guessType file with
  | none => (Except.error "unsupported file type", st)
  | some media_type =>
      if upload_ext_mismatch file media_type then
        (Except.error "extension does not match content type", st)
      else if file.size > get_max_size media_type then
        (Except.error "file too large", st)
      else
        (Except.ok (upload_media_rec guessType file uploaderId postId
            uuidName newId media_type),
         { files := st.files
             ++ [(uploadDir ++ [media_type_value media_type ++ "s",
                  upload_unique_filename file uuidName media_type],
                  file.size)],
           media := st.media ++ [upload_media_rec guessType file uploaderId
             postId uuidName newId media_type] })

/-- C5: `upload_file` raises exactly when no media type is determinable
from MIME type or extension, or the extension-implied type disagrees with
the MIME-implied type, or the size exceeds the per-type maximum; on error
neither disk nor the media table changes; on success the file lands under
the upload directory in the per-type subdirectory. -/
theorem c5_upload_validation (guessType : String → Option String)
    (uploadDir : List String) (file : UploadFile) (uploaderId : Nat)
    (postId : Option Nat) (uuidName : String) (newId : Nat)
    (st : MediaState) :
    ((∃ e, (upload_file guessType uploadDir file uploaderId postId uuidName
        newId st).1 = Except.error e) ↔
      ((get_media_type_from_mime (upload_content_type guessType file) = none
          ∧ get_media_type_from_extension (upload_original_name file) = none)
        ∨ (∃ a b,
            get_media_type_from_mime (upload_content_type guessType file)
              = some a
            ∧ get_media_type_from_extension (upload_original_name file)
              = some b
            ∧ b ≠ a)
        ∨ (∃ t, upload_media_type guessType file = some t
            ∧ file.size > get_max_size t)))
    ∧ (∀ e, (upload_file guessType uploadDir file uploaderId postId uuidName
        newId st).1 = Except.error e →
        (upload_file guessType uploadDir file uploaderId postId uuidName
          newId st).2 = st)
    ∧ (∀ m, (upload_file guessType uploadDir file uploaderId postId uuidName
        newId st).1 = Except.ok m →
        (upload_file guessType uploadDir file uploaderId postId uuidName
            newId st).2.files
          = st.files ++ [(uploadDir
              ++ [media_type_value m.mediaType ++ "s", m.filename],
              file.size)]
        ∧ (upload_file guessType uploadDir file uploaderId postId uuidName
            newId st).2.media = st.media ++ [m]) := by
  cases hmt : upload_media_type guessType file with
  | none =>
      have hpair : upload_file guessType uploadDir file uploaderId postId
          uuidName newId st = (Except.error "unsupported file type", st) := by
        unfold upload_file
        simp only [hmt]
      have hboth : get_media_type_from_mime (upload_content_type guessType
          file) = none
          ∧ get_media_type_from_extension (upload_original_name file)
            = none := by
        unfold upload_media_type at hmt
        cases hmime : get_media_type_from_mime
            (upload_content_type guessType file) with
        | some t => rw [hmime] at hmt; exact absurd hmt (by simp)
        | none => rw [hmime] at hmt; exact ⟨rfl, hmt⟩
      refine ⟨⟨fun _ => Or.inl hboth, fun _ => ?_⟩, fun e _ => by rw [hpair],
        fun m hm => ?_⟩
      · exact ⟨"unsupported file type", by rw [hpair]⟩
      · rw [hpair] at hm
        exact absurd hm (by simp)
  | some mt =>
      by_cases hmis : upload_ext_mismatch file mt = true
      · have hpair : upload_file guessType uploadDir file uploaderId postId
            uuidName newId st
            = (Except.error "extension does not match content type", st) := by
          unfold upload_file
          simp only [hmt, hmis, if_true]
        have hd2 : ∃ a b,
            get_media_type_from_mime (upload_content_type guessType file)
              = some a
            ∧ get_media_type_from_extension (upload_original_name file)
              = some b ∧ b ≠ a := by
          unfold upload_ext_mismatch at hmis
          cases hext : get_media_type_from_extension
              (upload_original_name file) with
          | none => rw [hext] at hmis; exact absurd hmis (by simp)
          | some b =>
              rw [hext] at hmis
              have hbne : b ≠ mt := by simpa using hmis
              cases hmime : get_media_type_from_mime
                  (upload_content_type guessType file) with
              | some a =>
                  have hamt : a = mt := by
                    unfold upload_media_type at hmt
                    rw [hmime] at hmt
                    exact Option.some.inj hmt
                  refine ⟨a, b, rfl, rfl, ?_⟩
                  rw [hamt]
                  exact hbne
              | none =>
                  exfalso
                  unfold upload_media_type at hmt
                  rw [hmime, hext] at hmt
                  exact hbne (Option.some.inj hmt)
        refine ⟨⟨fun _ => Or.inr (Or.inl hd2), fun _ => ?_⟩,
          fun e _ => by rw [hpair], fun m hm => ?_⟩
        · exact ⟨"extension does not match content type", by rw [hpair]⟩
        · rw [hpair] at hm
          exact absurd hm (by simp)
      · by_cases hsize : file.size > get_max_size mt
        · have hpair : upload_file guessType uploadDir file uploaderId postId
              uuidName newId st = (Except.error "file too large", st) := by
            unfold upload_file
            simp only [hmt]
            rw [if_neg hmis, if_pos hsize]
          refine ⟨⟨fun _ => Or.inr (Or.inr ⟨mt, rfl, hsize⟩), fun _ => ?_⟩,
            fun e _ => by rw [hpair], fun m hm => ?_⟩
          · exact ⟨"file too large", by rw [hpair]⟩
          · rw [hpair] at hm
            exact absurd hm (by simp)
        · have hpair : upload_file guessType uploadDir file uploaderId postId
              uuidName newId st
              = (Except.ok (upload_media_rec guessType file uploaderId postId
                  uuidName newId mt),
                 { files := st.files
                     ++ [(uploadDir ++ [media_type_value mt ++ "s",
                          upload_unique_filename file uuidName mt],
                          file.size)],
                   media := st.media ++ [upload_media_rec guessType file
                     uploaderId postId uuidName newId mt] }) := by
            unfold upload_file
            simp only [hmt]
            rw [if_neg hmis, if_neg hsize]
          refine ⟨⟨fun ⟨e, he⟩ => ?_, fun hrhs => ?_⟩, fun e he => ?_,
            fun m hm => ?_⟩
          · rw [hpair] at he
            exact absurd he (by simp)
          · exfalso
            rcases hrhs with ⟨h1, h2⟩ | ⟨a, b, ha, hb, hne⟩ | ⟨t, ht, hs⟩
            · unfold upload_media_type at hmt
              rw [h1, h2] at hmt
              exact absurd hmt (by simp)
            · have hamt : a = mt := by
                unfold upload_media_type at hmt
                rw [ha] at hmt
                exact Option.some.inj hmt
              apply hmis
              unfold upload_ext_mismatch
              rw [hb]
              rw [hamt] at hne
              simpa using hne
            · have htm : mt = t := Option.some.inj ht
              rw [← htm] at hs
              exact hsize hs
          · rw [hpair] at he
            exact absurd he (by simp)
          · rw [hpair] at hm
            obtain rfl := (Except.ok.inj hm)
            refine ⟨?_, ?_⟩
            · rw [hpair]
              rfl
            · rw [hpair]

/-- Witness for C5: a concrete oversized image upload is rejected and the
state is unchanged. -/
theorem c5_upload_validation_witness :
    (upload_file (fun _ => none) ["uploads"]
      { filename := "a.png", contentType := "image/png",
        size := 10485761 } 1 none "u1" 5
      { files := [], media := [] }).2 = { files := [], media := [] } :=
  (c5_upload_validation (fun _ => none) ["uploads"]
    { filename := "a.png", contentType := "image/png", size := 10485761 }
    1 none "u1" 5 { files := [], media := [] }).2.1
    "file too large" rfl

/-! ## delete_media and path resolution (src/services/media.py 243-268) -/

/-- A `pathlib` path: absolute flag plus components; "." components are
dropped at construction, ".." is kept (as pathlib does). -/
structure PyPath where
  absolute : Bool
  segs : List String
deriving DecidableEq, Repr

/-- Split a character list on a separator. -/
def split_on_char (sep : Char) : List Char → List (List Char)
  | [] => [[]]
  | c :: cs =>
      if c = sep then [] :: split_on_char sep cs
      else match split_on_char sep cs with
        | [] => [[c]]
        | h :: t => (c :: h) :: t

/-- Parse a path string into a `PyPath`. -/
def parse_path (s : String) : PyPath :=
  { absolute := starts_with s "/",
    segs := ((split_on_char '/' s.data).map
        (fun l => (⟨l⟩ : String))).filter
      (fun seg => seg != "" && seg != ".") }

/-- `pathlib`'s `/` operator: an absolute right operand replaces the left
one entirely. -/
def join_path (a b : PyPath) : PyPath :=
  if b.absolute then b else { absolute := a.absolute, segs := a.segs ++ b.segs }

/-- Lexical ".." elimination, as `Path.resolve` performs for paths whose
components are not symlinks. -/
def resolve_aux (acc : List String) : List String → List String
  | [] => acc
  | seg :: rest =>
      if seg = ".." then resolve_aux acc.dropLast rest
      else resolve_aux (acc ++ [seg]) rest

/-- `Path.resolve()` against the working directory `cwd` (given resolved
and absolute): the resulting absolute components. -/
def resolve_path (cwd : List String) (p : PyPath) : List String :=
  resolve_aux [] ((if p.absolute then [] else cwd) ++ p.segs)

/-- `str()` of a resolved absolute path. -/
def path_str (segs : List String) : String :=
  "/" ++ String.intercalate "/" segs

/-- `MediaService.delete_media` (src/services/media.py lines 243-268):
look up the record, enforce ownership when a requester is given, resolve
the stored path against the upload directory, refuse when the resolved
string does not start with the resolved upload directory string, else
unlink the file (if present) and delete the row. -/
def delete_media (cwd : List String) (upload_dir : PyPath) (mediaId : Nat)
    (requesterId : Option Nat) (st : MediaState) : Bool × MediaState :=
  match exactlyOne (st.media.filter (fun m => m.id == mediaId)) with
  | none => (false, st)
  | some m =>
      if (match requesterId with
          | some r => m.uploaderId != r
          | none => false) then (false, st)
      else
        if !(starts_with
            (path_str (resolve_path cwd
              (join_path upload_dir (parse_path m.filePath))))
            (path_str (resolve_path cwd upload_dir))) then
          (false, st)
        else
          (true,
           { files := if st.files.any (fun f =>
                 f.1 == resolve_path cwd
                   (join_path upload_dir (parse_path m.filePath))) then
               st.files.filter (fun f =>
                 f.1 != resolve_path cwd
                   (join_path upload_dir (parse_path m.filePath)))
             else st.files,
             media := st.media.filter (fun m2 => m2.id != mediaId) })

/-- A media row whose stored path climbs into a sibling directory that
shares the upload directory's name as a string prefix. -/
def evil_media : MediaRec :=
  { id := 1, postId := none, uploaderId := 1, mediaType := .image,
    filename := "secret.txt", originalName := "secret.txt",
    filePath := "../uploads-evil/secret.txt", fileSize := 0,
    mimeType := "image/png" }

/-- A state holding `evil_media` and the sibling-directory file on disk. -/
def evil_state : MediaState :=
  { files := [(["app", "uploads-evil", "secret.txt"], 0)],
    media := [evil_media] }

/-- C10 is wrong about the code: with upload directory `./uploads` under
working directory `/app`, the stored path `../uploads-evil/secret.txt`
resolves to `/app/uploads-evil/secret.txt`, which is NOT inside the
resolved upload directory `/app/uploads`, yet the `str().startswith`
containment check accepts it; `delete_media` deletes the outside file and
the row and returns True instead of returning False unchanged. -/
theorem c10_delete_media_path_escape :
    delete_media ["app"] (parse_path "./uploads") 1 none evil_state
      = (true, { files := [], media := [] })
    ∧ ¬ (resolve_path ["app"] (parse_path "./uploads")
        <+: resolve_path ["app"] (join_path (parse_path "./uploads")
          (parse_path "../uploads-evil/secret.txt"))) := by
  constructor
  · rfl
  · decide

/-! ## Bot post-creation conversation (src/bot/handlers/posts.py) -/

/-- The `PostCreation` states group (src/bot/handlers/posts.py 17-24). -/
inductive BotStep where
  | waiting_for_type
  | waiting_for_title
  | waiting_for_content
  | confirm_save_audio
  | waiting_for_visibility
  | waiting_for_media
  | waiting_for_publish_choice
deriving DecidableEq, Repr

/-- The flow stage of a state: the transcription-confirmation state is a
sub-state of the content step (the spec folds "voice/video needing
transcription" into content). -/
def bot_stage : BotStep → Nat
  | .waiting_for_type => 0
  | .waiting_for_title => 1
  | .waiting_for_content => 2
  | .confirm_save_audio => 2
  | .waiting_for_visibility => 3
  | .waiting_for_media => 4
  | .waiting_for_publish_choice => 5

/-- The FSM-scoped data that handlers branch on: `data.get("post_type",
"text")`. -/
structure BotData where
  postType : Option String
deriving DecidableEq, Repr

/-- The updates a chat can send, abstracted to what the routing filters
and handler branches inspect.  `ok` on the voice/video events means the
download, the transcription and its non-emptiness all succeeded. -/
inductive BotEvent where
  | newpost (isAdmin : Bool)
  | cancel
  | cb_post_type (d : String)
  | msg_text (t : String)
  | msg_voice (ok : Bool)
  | msg_video_note (ok : Bool)
  | msg_audio (ok : Bool)
  | msg_video (ok : Bool)
  | msg_photo
  | msg_document (mime : String)
  | cb_audio_save (d : String)
  | cb_vis (d : String)
  | cb_media_done
  | cb_media_skip
  | cb_publish (now : Bool)
deriving DecidableEq, Repr

/-- One aiogram dispatch round of src/bot/handlers/posts.py: each handler
fires only when its state filter matches; callbacks in a wrong state fall
through to `handle_stale_callback`, which changes nothing; validation
failures answer a warning and stay put. -/
def dispatch (s : Option BotStep) (d : BotData) (e : BotEvent) :
    Option BotStep × BotData :=
  match e with
  | .newpost isAdmin =>
      if isAdmin then (some .waiting_for_type, d) else (s, d)
  | .cancel =>
      match s with
      | none => (none, d)
      | some _ => (none, { postType := none })
  | .cb_post_type dd =>
      match s with
      | some .waiting_for_type =>
          (some .waiting_for_title,
           { postType := some (if "voice".data <:+: dd.data then "voice"
               else "text") })
      | _ => (s, d)
  | .msg_text t =>
      match s with
      | some .waiting_for_title =>
          if (py_strip t).length < 3 || (py_strip t).length > 256 then (s, d)
          else (some .waiting_for_content, d)
      | some .waiting_for_content =>
          if d.postType.getD "text" == "voice" then (s, d)
          else if (py_strip t).length < 10 then (s, d)
          else (some .waiting_for_visibility, d)
      | _ => (s, d)
  | .msg_voice ok =>
      match s with
      | some .waiting_for_content =>
          if d.postType.getD "text" != "voice" then (s, d)
          else if ok then (some .confirm_save_audio, d) else (s, d)
      | _ => (s, d)
  | .msg_video_note ok =>
      match s with
      | some .waiting_for_content =>
          if d.postType.getD "text" != "voice" then (s, d)
          else if ok then (some .confirm_save_audio, d) else (s, d)
      | _ => (s, d)
  | .msg_audio ok =>
      match s with
      | some .waiting_for_content =>
          if d.postType.getD "text" != "voice" then (s, d)
          else if ok then (some .confirm_save_audio, d) else (s, d)
      | _ => (s, d)
  | .msg_video ok =>
      match s with
      | some .waiting_for_content =>
          if d.postType.getD "text" != "voice" then (s, d)
          else if ok then (some .confirm_save_audio, d) else (s, d)
      | _ => (s, d)
  | .msg_photo => (s, d)
  | .msg_document _ => (s, d)
  | .cb_audio_save _ =>
      match s with
      | some .confirm_save_audio => (some .waiting_for_visibility, d)
      | _ => (s, d)
  | .cb_vis _ =>
      match s with
      | some .waiting_for_visibility => (some .waiting_for_media, d)
      | _ => (s, d)
  | .cb_media_done =>
      match s with
      | some .waiting_for_media => (some .waiting_for_publish_choice, d)
      | _ => (s, d)
  | .cb_media_skip =>
      match s with
      | some .waiting_for_media => (some .waiting_for_publish_choice, d)
      | _ => (s, d)
  | .cb_publish _ =>
      match s with
      | some .waiting_for_publish_choice => (none, { postType := none })
      | _ => (s, d)

/-- C8: The post-creation conversation advances in order.  Every dispatch
either keeps the state, clears it, restarts at the type-selection step
(`/newpost`), or moves within the current stage or to the next stage of
select type → title → content (text, or voice/video with the
transcription-confirmation sub-state) → visibility → media →
publish/draft; and each flow step past the first is entered only from
its predecessor stage. -/
theorem c8_conversation_order (s : Option BotStep) (d : BotData)
    (e : BotEvent) :
    ((dispatch s d e).1 = s
      ∨ (dispatch s d e).1 = none
      ∨ (dispatch s d e).1 = some BotStep.waiting_for_type
      ∨ (∃ st st2, s = some st ∧ (dispatch s d e).1 = some st2
          ∧ (bot_stage st2 = bot_stage st
              ∨ bot_stage st2 = bot_stage st + 1)))
    ∧ ((dispatch s d e).1 = some BotStep.waiting_for_title →
        (dispatch s d e).1 = s ∨ s = some BotStep.waiting_for_type)
    ∧ ((dispatch s d e).1 = some BotStep.waiting_for_content →
        (dispatch s d e).1 = s ∨ s = some BotStep.waiting_for_title)
    ∧ ((dispatch s d e).1 = some BotStep.confirm_save_audio →
        (dispatch s d e).1 = s ∨ s = some BotStep.waiting_for_content)
    ∧ ((dispatch s d e).1 = some BotStep.waiting_for_visibility →
        (dispatch s d e).1 = s ∨ s = some BotStep.waiting_for_content
          ∨ s = some BotStep.confirm_save_audio)
    ∧ ((dispatch s d e).1 = some BotStep.waiting_for_media →
        (dispatch s d e).1 = s ∨ s = some BotStep.waiting_for_visibility)
    ∧ ((dispatch s d e).1 = some BotStep.waiting_for_publish_choice →
        (dispatch s d e).1 = s ∨ s = some BotStep.waiting_for_media) := by
  rcases s with _ | st
  · cases e <;> simp [dispatch, bot_stage] <;> split_ifs <;> simp_all
  · cases st <;> cases e <;> simp [dispatch, bot_stage] <;> split_ifs <;>
      simp_all

/-- Witness for C8: a concrete visibility selection enters the media step
only from the visibility step. -/
theorem c8_conversation_order_witness :
    (dispatch (some BotStep.waiting_for_visibility) { postType := none }
        (BotEvent.cb_vis "vis_public")).1
      = some BotStep.waiting_for_visibility
    ∨ (some BotStep.waiting_for_visibility : Option BotStep)
      = some BotStep.waiting_for_visibility :=
  (c8_conversation_order (some BotStep.waiting_for_visibility)
    { postType := none } (BotEvent.cb_vis "vis_public")).2.2.2.2.2.1 rfl
